import Mathlib

/-!
Verification of the cppp preprocessor core (a Python C/C++ preprocessor).

This file gives a shallow embedding of the translation-phase pipeline of
`cppp/cparser.py`, of the directive engine of `cppp/directives.py`, of the
macro class of `cppp/cmacro.py` and of the constructor of `cppp/cppp.py`,
and proves or refutes the behavioural claims about them.

The streaming stages of the source are asyncio coroutines connected by
bounded queues.  Each stage is a deterministic transform of its input
sequence, so each is embedded as a pure function from the list of queue
elements it consumes to the list of elements it emits; the bounded buffer
flushes of the source only move the oldest buffered elements to the output
queue and never change their order, so the embedding keeps the whole buffer
and emits it at the end.
-/

set_option maxRecDepth 100000

namespace Cppp

/-- A positioned character, the queue element of the streaming stages:
a `(char, line_num, char_position)` triple as produced by the input
generators of `cparser.py`. -/
abbrev PChar := Char × Nat × Nat

/-- The unicode replacement character U+FFFD that the input functions skip
and count as a decode error. -/
def replacementChar : Char := Char.ofNat 0xFFFD

/-! ### Source decoding (cparser.py, input_txt_from_string / input_txt_from_file) -/

/-- The newline correction performed at the top of `input_txt_from_string`:
`text.replace(CRLF, LF).replace(CR, LF).replace(FF, LF)`.  A single left to
right pass is equivalent to the three chained replaces because the second
and third replaces map every remaining CR and FF to LF regardless of
context. -/
def correctNewlines : List Char → List Char
  | [] => []
  | '\r' :: '\n' :: rest => '\n' :: correctNewlines rest
  | c :: rest => (if c = '\r' ∨ c = '\x0c' then '\n' else c) :: correctNewlines rest

/-- The character loop shared by the string decoder: skip U+FFFD, increment
the column, then (if the previously consumed character was a newline)
advance the line and reset the column, and emit the positioned character. -/
def inputStringGo : List Char → Nat → Nat → Bool → List PChar
  | [], _, _, _ => []
  | c :: rest, lineNum, charPosition, lineAdd =>
      if c = replacementChar then inputStringGo rest lineNum charPosition lineAdd
      else
        let cp := charPosition + 1
        let ln2 := if lineAdd then lineNum + 1 else lineNum
        let cp2 := if lineAdd then 1 else cp
        (c, ln2, cp2) :: inputStringGo rest ln2 cp2 (c = '\n')

/-- Model of `input_txt_from_string` (cparser.py lines 61-95): decode an in
memory string into positioned characters.  The decode-error count returned
by the generator is not modelled; the emitted stream is. -/
def input_txt_from_string (text : List Char) : List PChar :=
  inputStringGo (correctNewlines text) 1 1 false

/-- The character loop of the file decoder: same bookkeeping as the string
decoder, except that CR and FF are mapped to LF inside the loop (after the
position bookkeeping), exactly as in the source. -/
def inputFileGo : List Char → Nat → Nat → Bool → List PChar
  | [], _, _, _ => []
  | c :: rest, lineNum, charPosition, lineAdd =>
      if c = replacementChar then inputFileGo rest lineNum charPosition lineAdd
      else
        let cp := charPosition + 1
        let ln2 := if lineAdd then lineNum + 1 else lineNum
        let cp2 := if lineAdd then 1 else cp
        let c2 := if c = '\r' ∨ c = '\x0c' then '\n' else c
        (c2, ln2, cp2) :: inputFileGo rest ln2 cp2 (c2 = '\n')

/-- Model of `input_txt_from_file` (cparser.py lines 16-58) over the decoded
character stream of the file.  Python opens the file in text mode, so CRLF
pairs have already been translated to LF by the time the loop sees the
characters; the loop itself maps any remaining CR or FF to LF. -/
def input_txt_from_file (chars : List Char) : List PChar :=
  inputFileGo chars 1 1 false

/-! ### Translation phase 1 (cparser.py, do_translation_phase_1) -/

/-- Python `str.isspace` restricted to the unicode code points for which it
is true: ASCII whitespace, the C0 information separators, NEL, NBSP and the
unicode space separators. -/
def pyIsSpace (c : Char) : Bool :=
  let n := c.toNat
  decide (n = 0x20 ∨ (0x09 ≤ n ∧ n ≤ 0x0d) ∨ (0x1c ≤ n ∧ n ≤ 0x1f) ∨ n = 0x85 ∨
    n = 0xa0 ∨ n = 0x1680 ∨ (0x2000 ≤ n ∧ n ≤ 0x200a) ∨ n = 0x2028 ∨ n = 0x2029 ∨
    n = 0x202f ∨ n = 0x205f ∨ n = 0x3000)

/-- The `trigraph_subs` dictionary of `do_translation_phase_1`. -/
def trigraphSubs (c : Char) : Option Char :=
  if c = '=' then some '#'
  else if c = '/' then some '\\'
  else if c = '\'' then some '^'
  else if c = '(' then some '['
  else if c = ')' then some ']'
  else if c = '!' then some '|'
  else if c = '<' then some '{'
  else if c = '>' then some '}'
  else if c = '-' then some '~'
  else none

/-- The state of the phase-1 loop.  `rbuf` is `char_buf` in reverse order:
its head is the most recently buffered character (`char_buf[-1]`). -/
structure P1State where
  rbuf : List PChar
  escapeChar : Bool
  inString : Bool
  inCommentC : Bool
  inCommentCpp : Bool
deriving Repr, DecidableEq

/-- The character at `char_buf[-1]`, when the buffer is not empty. -/
def P1State.lastChar (st : P1State) : Option Char := st.rbuf.head?.map (·.1)

/-- The if/elif chain of the phase-1 loop body.  Returns the state with the
flags updated, the (possibly rewritten) current character, and whether the
branch discarded the character with `continue`. -/
def p1chain (st : P1State) (c : Char) : P1State × Char × Bool :=
  if st.inString then
    if ¬st.escapeChar ∧ c = '"' then ({ st with inString := false }, c, false)
    else if ¬st.escapeChar ∧ c = '\\' then ({ st with escapeChar := true }, c, false)
    else ({ st with escapeChar := false }, c, false)
  else if st.inCommentCpp then
    if ¬st.escapeChar ∧ c = '\n' then ({ st with inCommentCpp := false }, c, false)
    else if ¬st.escapeChar ∧ c = '\\' then ({ st with escapeChar := true }, c, false)
    else ({ st with escapeChar := false }, c, false)
  else if st.inCommentC then
    if c = '/' ∧ st.lastChar = some '*' then ({ st with inCommentC := false }, c, false)
    else (st, c, false)
  else if c = '"' then ({ st with inString := true }, c, false)
  else if c = '/' then
    if st.lastChar = some '/' then ({ st with inCommentCpp := true }, c, false)
    else (st, c, false)
  else if c = '*' then
    if st.lastChar = some '/' then ({ st with inCommentC := true }, c, false)
    else (st, c, false)
  else if c = '\n' then
    if st.lastChar = some '\n' then (st, c, true) else (st, c, false)
  else if pyIsSpace c then
    if st.lastChar = some ' ' then (st, c, true) else (st, ' ', false)
  else (st, c, false)

/-- One iteration of the phase-1 loop: the if/elif chain, then the trigraph
substitution (pop `char_buf[-1]` and rewrite `char_buf[-1]` in place,
keeping its position), then the append. -/
def p1step (trigraphsEnabled : Bool) (st : P1State) (pc : PChar) : P1State :=
  let res := p1chain st pc.1
  let st1 := res.1
  let c1 := res.2.1
  if res.2.2 then st1
  else
    match trigraphsEnabled, st1.rbuf, trigraphSubs c1 with
    | true, (q1, _) :: (q2, p2) :: rest, some sub =>
        if q1 = '?' ∧ q2 = '?' then
          { st1 with
            rbuf := (sub, p2) :: rest,
            escapeChar := if c1 = '/' then true else st1.escapeChar }
        else { st1 with rbuf := (c1, pc.2) :: st1.rbuf }
    | _, _, _ => { st1 with rbuf := (c1, pc.2) :: st1.rbuf }

/-- Model of `do_translation_phase_1` (cparser.py lines 112-202): fold the
loop body over the input and emit the buffer in order. -/
def do_translation_phase_1 (trigraphsEnabled : Bool) (input : List PChar) : List PChar :=
  ((input.foldl (p1step trigraphsEnabled) ⟨[], false, false, false, false⟩).rbuf).reverse

/-! ### Translation phase 2 (cparser.py, do_translation_phase_2) -/

/-- The phase-2 loop.  A newline with the escape flag set is dropped
together with the flag; a backslash without the flag is consumed and only
sets the flag (it is never re-emitted); every other character clears the
flag and is emitted. -/
def p2go : Bool → List PChar → List PChar
  | _, [] => []
  | escapeChar, pc :: rest =>
      if pc.1 = '\n' ∧ escapeChar then p2go false rest
      else if pc.1 = '\\' ∧ ¬escapeChar then p2go true rest
      else pc :: p2go false rest

/-- Model of `do_translation_phase_2` (cparser.py lines 205-234). -/
def do_translation_phase_2 (input : List PChar) : List PChar := p2go false input

/-! ### Translation phase 3, comment removal
(cparser.py, do_translation_phase_3_remove_comments) -/

/-- The state of the comment-removal loop.  `rbuf` is `char_buf` in reverse
order, head = `char_buf[-1]`. -/
structure RCState where
  rbuf : List PChar
  escapeChar : Bool
  asteriskChar : Bool
  inString : Bool
  inCommentC : Bool
  inCommentCpp : Bool
deriving Repr, DecidableEq

/-- The character at `char_buf[-1]` of the comment-removal buffer. -/
def RCState.lastChar (st : RCState) : Option Char := st.rbuf.head?.map (·.1)

/-- The first if/elif chain of the comment-removal loop body: string and
comment tracking, and the replacement of a comment opener by a space at the
position of the popped slash.  Returns the updated state, the current
(possibly replaced) positioned character, and whether the branch discarded
the character with `continue`. -/
def rcchain (st : RCState) (pc : PChar) : RCState × PChar × Bool :=
  let c := pc.1
  if st.inString then
    if ¬st.escapeChar ∧ c = '"' then ({ st with inString := false }, pc, false)
    else if ¬st.escapeChar ∧ c = '\\' then ({ st with escapeChar := true }, pc, false)
    else ({ st with escapeChar := false }, pc, false)
  else if st.inCommentCpp then
    if c = '\n' then ({ st with inCommentCpp := false }, pc, false)
    else ({ st with escapeChar := false }, pc, true)
  else if st.inCommentC then
    if c = '/' ∧ st.asteriskChar then ({ st with inCommentC := false }, pc, true)
    else if c = '*' then ({ st with asteriskChar := true }, pc, true)
    else ({ st with asteriskChar := false }, pc, true)
  else if c = '"' then ({ st with inString := true }, pc, false)
  else if c = '/' then
    if st.lastChar = some '/' then
      match st.rbuf with
      | prev :: rest => ({ st with inCommentCpp := true, rbuf := rest }, (' ', prev.2), false)
      | [] => (st, pc, false)
    else (st, pc, false)
  else if c = '*' then
    if st.lastChar = some '/' then
      match st.rbuf with
      | prev :: rest => ({ st with inCommentC := true, rbuf := rest }, (' ', prev.2), false)
      | [] => (st, pc, false)
    else (st, pc, false)
  else (st, pc, false)

/-- One iteration of the comment-removal loop: the first chain, then the
additional whitespace truncation, then the append. -/
def rcstep (st : RCState) (pc : PChar) : RCState :=
  let res := rcchain st pc
  let st1 := res.1
  let pc1 := res.2.1
  if res.2.2 then st1
  else
    if ¬st1.inString ∧ pc1.1 = '\n' then
      match st1.rbuf with
      | [] => st1
      | (h, p) :: rest =>
          if h = '\n' then st1
          else if h = ' ' then { st1 with rbuf := pc1 :: rest }
          else { st1 with rbuf := pc1 :: (h, p) :: rest }
    else if ¬st1.inString ∧ pc1.1 = ' ' then
      match st1.rbuf with
      | [] => st1
      | (h, p) :: rest =>
          if h = ' ' ∨ h = '\n' then st1
          else { st1 with rbuf := pc1 :: (h, p) :: rest }
    else { st1 with rbuf := pc1 :: st1.rbuf }

/-- Model of `do_translation_phase_3_remove_comments` (cparser.py lines
237-332). -/
def do_translation_phase_3_remove_comments (input : List PChar) : List PChar :=
  ((input.foldl rcstep ⟨[], false, false, false, false, false⟩).rbuf).reverse

/-! ### Translation phase 3, tokenization
(cparser.py, do_translation_phase_3_tokenize; ltoken.py, LexerToken) -/

/-- A lexer token (ltoken.py): start position, text and the identifier
compatibility flag. -/
structure LexerToken where
  start : Nat × Nat
  val : List Char
  identifierCompatible : Bool
deriving Repr, DecidableEq

/-- The `symbols` tuple of `do_translation_phase_3_tokenize`, written out as
in the source (the duplicated `=` is harmless). -/
def symbolsList : List Char :=
  ['+', '-', '*', '/', '%', '=', '<', '>', '!', '=',
   '&', '|', '^', '~', '.', ':', ';', ',', '[', ']',
   '(', ')', '{', '}', '?', '#', '\n', '\'', '"',
   ' ', '\\']

/-- Membership in the `symbols` tuple. -/
def isSymbol (c : Char) : Bool := symbolsList.contains c

/-- `[A-Za-z_]`. -/
def isIdentStartChar (c : Char) : Bool :=
  decide (('A' ≤ c ∧ c ≤ 'Z') ∨ ('a' ≤ c ∧ c ≤ 'z') ∨ c = '_')

/-- `[A-Za-z0-9_]`. -/
def isIdentTailChar (c : Char) : Bool :=
  isIdentStartChar c || decide ('0' ≤ c ∧ c ≤ '9')

/-- The tail of a Python `re.match` against `[A-Za-z0-9_]*$`: the dollar
anchor of `re.match` also matches just before a single trailing newline, so
a list consisting of exactly one newline is accepted. -/
def identTailMatch : List Char → Bool
  | [] => true
  | c :: rest =>
      if c = '\n' ∧ rest = [] then true
      else isIdentTailChar c && identTailMatch rest

/-- Model of `is_identifier_compatible` (directives.py lines 60-67):
`bool(re.match(r"^[A-Za-z_][A-Za-z0-9_]*$", name))` with Python semantics
for the dollar anchor. -/
def is_identifier_compatible : List Char → Bool
  | [] => false
  | c :: rest => isIdentStartChar c && identTailMatch rest

/-- An exact, full-width match of the regular expression
`^[A-Za-z_][A-Za-z0-9_]*$` read mathematically (the whole text is one
identifier; no trailing-newline allowance). -/
def matchesIdentifierRegex : List Char → Bool
  | [] => false
  | c :: rest => isIdentStartChar c && rest.all isIdentTailChar

/-- The state of the tokenizer loop: the string flags and `token_buf`
(start position of the first buffered character, buffered text). -/
structure TkState where
  inString : Bool
  escapeChar : Bool
  tokenBuf : Option ((Nat × Nat) × List Char)
deriving Repr, DecidableEq

/-- Emit `LexerToken(token_buf[0], token_buf[1],
is_identifier_compatible(token_buf[1]))`. -/
def mkBufToken (b : (Nat × Nat) × List Char) : LexerToken :=
  ⟨b.1, b.2, is_identifier_compatible b.2⟩

/-- One iteration of the tokenizer loop.  Returns the new state and the
emitted tokens in order.  When a symbol arrives with a non-empty buffer the
source flushes the buffer and re-processes the same character with
`get_next_char = False`; that second pass is inlined here. -/
def tkstep (st : TkState) (pc : PChar) : TkState × List LexerToken :=
  let c := pc.1
  let pos := pc.2
  if st.inString then
    let st1 :=
      if ¬st.escapeChar ∧ c = '"' then { st with inString := false }
      else if ¬st.escapeChar ∧ c = '\\' then { st with escapeChar := true }
      else { st with escapeChar := false }
    -- token_buf[1] += char; in_string is only ever set right after the
    -- opening quote has been buffered, so the buffer is non-empty here
    match st1.tokenBuf with
    | some (p, t) => ({ st1 with tokenBuf := some (p, t ++ [c]) }, [])
    | none => ({ st1 with tokenBuf := some (pos, [c]) }, [])
  else if isSymbol c then
    match st.tokenBuf with
    | some b =>
        if c = '"' then
          ({ st with inString := true, tokenBuf := some (pos, [c]) }, [mkBufToken b])
        else
          ({ st with tokenBuf := none }, [mkBufToken b, mkBufToken (pos, [c])])
    | none =>
        if c = '"' then ({ st with inString := true, tokenBuf := some (pos, [c]) }, [])
        else ({ st with tokenBuf := none }, [mkBufToken (pos, [c])])
  else
    match st.tokenBuf with
    | some (p, t) => ({ st with tokenBuf := some (p, t ++ [c]) }, [])
    | none => ({ st with tokenBuf := some (pos, [c]) }, [])

/-- The tokenizer loop with the final flush of a pending partial token. -/
def tkGo : TkState → List PChar → List LexerToken
  | st, [] =>
      (match st.tokenBuf with
       | some b => [mkBufToken b]
       | none => [])
  | st, pc :: rest =>
      let r := tkstep st pc
      r.2 ++ tkGo r.1 rest

/-- Model of `do_translation_phase_3_tokenize` (cparser.py lines 335-412). -/
def do_translation_phase_3_tokenize (input : List PChar) : List LexerToken :=
  tkGo ⟨false, false, none⟩ input

/-- Model of `do_translation_phase_4` (cparser.py lines 415-432): in
`run_translation` this stage only copies the tokens through. -/
def do_translation_phase_4 (toks : List LexerToken) : List LexerToken := toks

/-- The flat text of a token sequence: the concatenation of the token texts
in order, as produced by `cat_output_text`. -/
def flattenTokens (toks : List LexerToken) : List Char :=
  toks.foldr (fun t acc => t.val ++ acc) []

/-- Model of `run_translation` (cparser.py lines 445-474) on string input
with `phase = 4`: all five translation stages in order. -/
def run_translation (text : List Char) (trigraphsEnabled : Bool) : List LexerToken :=
  do_translation_phase_4 (do_translation_phase_3_tokenize
    (do_translation_phase_3_remove_comments (do_translation_phase_2
      (do_translation_phase_1 trigraphsEnabled (input_txt_from_string text)))))

/-! ### The directive engine (directives.py) and the macro class (cmacro.py)

The directive handlers mutate a Python dict and may raise exceptions; the
embedding threads the table explicitly and returns `Except`. -/

/-- The Python exceptions the directive engine can raise. -/
inductive PyError where
  | typeError
  | attributeError
  | indexError
deriving Repr, DecidableEq

/-- A dynamically typed Python value, as far as the directive engine passes
values around. -/
inductive PyVal where
  | toks : List LexerToken → PyVal
  | optToks : Option (List LexerToken) → PyVal
  | pos : Nat × Nat → PyVal
  | boolVal : Bool → PyVal
  | noneVal : PyVal
deriving Repr, DecidableEq

/-- Python truthiness of the embedded values. -/
def pyTruthy : PyVal → Bool
  | .toks l => !l.isEmpty
  | .optToks (some l) => !l.isEmpty
  | .optToks none => false
  | .pos _ => true
  | .boolVal b => b
  | .noneVal => false

/-- The `CMacro` object (cmacro.py): fields `_name`, `_val`, `_source` as
set by `__init__`. -/
structure CMacroObj where
  name : PyVal
  val : PyVal
  source : PyVal
deriving Repr, DecidableEq

/-- `CMacro.__init__` (cmacro.py lines 19-22) as a dynamic call:
`def __init__(self, name, value=None, source=None)` accepts between one and
three positional arguments; any other call raises `TypeError`.  The stored
value is `value if value else []`. -/
def cmacroNew : List PyVal → Except PyError CMacroObj
  | [n] => .ok ⟨n, .toks [], .noneVal⟩
  | [n, v] => .ok ⟨n, if pyTruthy v then v else .toks [], .noneVal⟩
  | [n, v, s] => .ok ⟨n, if pyTruthy v then v else .toks [], s⟩
  | _ => .error .typeError

/-- The macro table: a Python dict from macro-name text to `CMacro`,
embedded as an association list with dict insert/delete semantics. -/
abbrev MacroTable := List (List Char × CMacroObj)

/-- Key membership in the macro table. -/
def mtContains (m : MacroTable) (k : List Char) : Bool :=
  m.any (fun p => decide (p.1 = k))

/-- Dict assignment: overwrite in place, or append a new entry. -/
def mtInsert (m : MacroTable) (k : List Char) (v : CMacroObj) : MacroTable :=
  if mtContains m k then m.map (fun p => if p.1 = k then (k, v) else p)
  else m ++ [(k, v)]

/-- Dict `del`. -/
def mtErase (m : MacroTable) (k : List Char) : MacroTable :=
  m.filter (fun p => decide (p.1 ≠ k))

/-- Python list indexing with negative-index wrap-around; out of range
raises `IndexError`. -/
def pyIndex (lst : List LexerToken) (k : Int) : Except PyError LexerToken :=
  let k2 := if k < 0 then k + lst.length else k
  if k2 < 0 then .error .indexError
  else
    match lst[k2.toNat]? with
    | some t => .ok t
    | none => .error .indexError

/-- The scan of `_cpp_directive_get_size` over the tokens following the
`#`: count all tokens and the non-space tokens up to the next newline token
or the end of the list. -/
def gsGo : List LexerToken → Nat → Nat → Nat × Nat
  | [], dt, ns => (dt, ns)
  | t :: rest, dt, ns =>
      if t.val = ['\n'] then (dt, ns)
      else gsGo rest (dt + 1) (if t.val = [' '] then ns else ns + 1)

/-- Model of `_cpp_directive_get_size` (directives.py lines 408-427):
returns `(directive_tokens, directive_non_space_tokens)`. -/
def cppDirectiveGetSize (lst : List LexerToken) (i : Nat) : Nat × Nat :=
  gsGo (lst.drop (i + 1)) 1 0

/-- The forward space skip `j = 1; while j < total and lexer_lst[i+j] == ' ':
j += 1` used by `_do_perform_directive` and `_cpp_directive_handle_define`.
The fuel is the remaining number of admissible iterations; the indices read
are in range whenever `total` comes from `_cpp_directive_get_size`. -/
def ssGo (lst : List LexerToken) (i : Nat) : Nat → Nat → Nat
  | j, 0 => j
  | j, fuel + 1 =>
      if (lst[i + j]?).map (·.val) = some [' '] then ssGo lst i (j + 1) fuel else j

/-- The space skip starting at `j = 1` bounded by `j < total`. -/
def skipSpacesJ (lst : List LexerToken) (i : Nat) (total : Nat) : Nat :=
  ssGo lst i 1 (total - 1)

/-- The backward space skip of the variadic check in `_get_define_params`:
`while (i_end - eo) > i_start and lexer_lst[i_end - eo] == ' ': eo += 1`. -/
def gdpSkipBack (lst : List LexerToken) (iStart iEnd : Int) :
    Nat → Int → Except PyError Int
  | 0, eo => .ok eo
  | fuel + 1, eo =>
      if iEnd - eo > iStart then
        match pyIndex lst (iEnd - eo) with
        | .error e => .error e
        | .ok t =>
            if t.val = [' '] then gdpSkipBack lst iStart iEnd fuel (eo + 1) else .ok eo
      else .ok eo

/-- The parameter-collection loop of `_get_define_params`: walk the indices
from `i_start` to `limit = i_end - end_offset`, tracking `valid_param` and
`valid_delimiter`.  Returns `none` for the early `return False, None` of an
invalid parameter list. -/
def gdpParams (lst : List LexerToken) (limit : Int) :
    Nat → Int → List LexerToken → Bool → Bool →
    Except PyError (Option (List LexerToken) × Bool × Bool)
  | 0, _, params, vp, vd => .ok (some params, vp, vd)
  | fuel + 1, idx, params, vp, vd =>
      if idx ≤ limit then
        match pyIndex lst idx with
        | .error e => .error e
        | .ok t =>
            if vd ∧ ¬vp ∧ t.identifierCompatible then
              gdpParams lst limit fuel (idx + 1) (params ++ [t]) true false
            else if vp ∧ ¬vd ∧ t.val = [','] then
              gdpParams lst limit fuel (idx + 1) params false true
            else if t.val ≠ [' '] then .ok (none, vp, vd)
            else gdpParams lst limit fuel (idx + 1) params vp vd
      else .ok (some params, vp, vd)

/-- Model of `_get_define_params` (directives.py lines 89-138).  The result
`(False, None)` of the source is `.ok (false, none)`. -/
def getDefineParams (lst : List LexerToken) (iStart iEnd : Int) :
    Except PyError (Bool × Option (List LexerToken)) :=
  let headRes : Except PyError (Option (Bool × Int)) :=
    if iEnd - iStart ≥ 2 then
      match pyIndex lst iEnd, pyIndex lst (iEnd - 1), pyIndex lst (iEnd - 2) with
      | .ok tE, .ok tE1, .ok tE2 =>
          if tE.val = ['.'] ∧ tE1.val = ['.'] ∧ tE2.val = ['.'] then
            match gdpSkipBack lst iStart iEnd ((iEnd - iStart).toNat + 1) 3 with
            | .error e => .error e
            | .ok eo =>
                if iEnd - eo ≤ iStart then .ok (some (true, eo + 1))
                else
                  match pyIndex lst (iEnd - eo) with
                  | .error e => .error e
                  | .ok t =>
                      if t.val = [','] then .ok (some (true, eo + 1))
                      else .ok none
          else .ok (some (false, 0))
      | .error e, _, _ => .error e
      | _, .error e, _ => .error e
      | _, _, .error e => .error e
    else .ok (some (false, 0))
  match headRes with
  | .error e => .error e
  | .ok none => .ok (false, none)
  | .ok (some (variadic, eo)) =>
      match gdpParams lst (iEnd - eo) ((iEnd - eo - iStart + 1).toNat) iStart [] false true with
      | .error e => .error e
      | .ok (none, _, _) => .ok (false, none)
      | .ok (some params, vp, vd) =>
          if vd ∧ ¬vp then .ok (false, none) else .ok (variadic, some params)

/-- The scan for the closing parenthesis of a function-like parameter list:
`while j < total: if lexer_lst[i+j] == ')': break; j += 1; else: return 0`.
`.ok none` is the while-else path (no closing parenthesis on the line). -/
def fcpGo (lst : List LexerToken) (i : Nat) : Nat → Nat → Except PyError (Option Nat)
  | _, 0 => .ok none
  | j, fuel + 1 =>
      match lst[i + j]? with
      | none => .error .indexError
      | some t => if t.val = [')'] then .ok (some j) else fcpGo lst i (j + 1) fuel

/-- The collection of the replacement tokens:
`while j < total: macros_data.append(lexer_lst[i+j]); j += 1`. -/
def cdGo (lst : List LexerToken) (i : Nat) : Nat → Nat → Except PyError (List LexerToken)
  | _, 0 => .ok []
  | j, fuel + 1 =>
      match lst[i + j]? with
      | none => .error .indexError
      | some t =>
          match cdGo lst i (j + 1) fuel with
          | .error e => .error e
          | .ok rest => .ok (t :: rest)

/-- Model of `_cpp_directive_handle_define` (directives.py lines 141-198).
Returns the updated macro table and the handler offset.  The table update
at line 196 is a five-positional-argument call of `CMacro`, whose
`__init__` accepts at most three. -/
def cppDirectiveHandleDefine (lst : List LexerToken) (i : Nat) (macrosDict : MacroTable)
    (tokenLen tokenTotalLen : Nat) : Except PyError (MacroTable × Nat) :=
  if tokenLen < 2 then .ok (macrosDict, 0)
  else
    let j0 := skipSpacesJ lst i tokenTotalLen
    match lst[i + j0]? with
    | none => .error .indexError
    | some macroName =>
        let j1 := j0 + 1
        -- the function-like parameter-list parse; `.ok none` is `return 0`
        let afterParams : Except PyError (Option (Bool × Bool × Option (List LexerToken) × Nat)) :=
          if tokenLen > 3 ∧ j1 < tokenTotalLen then
            match lst[i + j1]? with
            | none => .error .indexError
            | some t =>
                if t.val = ['('] then
                  let j2 := j1 + 1
                  match fcpGo lst i j2 (tokenTotalLen - j2) with
                  | .error e => .error e
                  | .ok none => .ok none
                  | .ok (some jClose) =>
                      -- the source passes the offsets `start` and `j - 1` to
                      -- _get_define_params, which reads them as absolute indices
                      match getDefineParams lst (Int.ofNat j2) (Int.ofNat jClose - 1) with
                      | .error e => .error e
                      | .ok (_, none) => .ok none
                      | .ok (variadic, some ps) =>
                          .ok (some (true, variadic, some ps, jClose + 1))
                else .ok (some (false, false, none, j1))
          else .ok (some (false, false, none, j1))
        match afterParams with
        | .error e => .error e
        | .ok none => .ok (macrosDict, 0)
        | .ok (some (functionLike, variadic, macroParams, j)) =>
            let spaceCheck : Except PyError Bool :=
              if j < tokenTotalLen then
                match lst[i + j]? with
                | none => .error .indexError
                | some t => .ok (t.val ≠ [' '])
              else .ok false
            match spaceCheck with
            | .error e => .error e
            | .ok true => .ok (macrosDict, 0)
            | .ok false =>
                match cdGo lst i j (tokenTotalLen - j) with
                | .error e => .error e
                | .ok macrosData =>
                    match cmacroNew [.toks macrosData, .optToks macroParams,
                        .pos macroName.start, .boolVal functionLike, .boolVal variadic] with
                    | .error e => .error e
                    | .ok m => .ok (mtInsert macrosDict macroName.val m, 0)

/-- The space skip of `_cpp_directive_handle_undef`:
`while (i + j) < token_total_len and lexer_lst[i + j] == ' ': j += 1`
(the source compares the absolute index `i + j` against the line length). -/
def undefSkip (lst : List LexerToken) (i : Nat) (total : Nat) : Nat → Nat → Nat
  | j, 0 => j
  | j, fuel + 1 =>
      if i + j < total ∧ (lst[i + j]?).map (·.val) = some [' '] then
        undefSkip lst i total (j + 1) fuel
      else j

/-- Model of `_cpp_directive_handle_undef` (directives.py lines 201-223). -/
def cppDirectiveHandleUndef (lst : List LexerToken) (i : Nat) (macrosDict : MacroTable)
    (tokenLen tokenTotalLen : Nat) : Except PyError (MacroTable × Nat) :=
  if tokenLen ≠ 2 then .ok (macrosDict, 0)
  else
    let j := undefSkip lst i tokenTotalLen 1 (tokenTotalLen + 1)
    match lst[i + j]? with
    | none => .error .indexError
    | some t =>
        if mtContains macrosDict t.val then .ok (mtErase macrosDict t.val, 0)
        else .ok (macrosDict, 0)

/-- The keys of `_cpp_directive_handlers`. -/
def directiveKeywords : List (List Char) :=
  ["define", "undef", "include", "error", "warning", "line", "pragma"].map String.toList

/-- The keys of `_cpp_directive_handlers_conditionals`. -/
def conditionalKeywords : List (List Char) :=
  ["if", "elif", "else", "endif", "ifdef", "ifndef"].map String.toList

/-- Dispatch on the keys of `_cpp_directive_handlers`: define and undef do
real work; include/error/warning/line/pragma only print a debug line or are
explicitly unsupported, touch no state and return 0. -/
def dispatchHandler (kw : List Char) (lst : List LexerToken) (i : Nat) (m : MacroTable)
    (tokenLen tokenTotalLen : Nat) : Except PyError (MacroTable × Nat) :=
  if kw = "define".toList then cppDirectiveHandleDefine lst i m tokenLen tokenTotalLen
  else if kw = "undef".toList then cppDirectiveHandleUndef lst i m tokenLen tokenTotalLen
  else .ok (m, 0)

/-- Python `del lst[a:b]`. -/
def pyDelRange (lst : List LexerToken) (a b : Nat) : List LexerToken :=
  lst.take a ++ lst.drop (max a b)

/-- Model of `_do_perform_directive` (directives.py lines 430-486).
Returns the mutated token list, the index offset and the macro table.  All
six conditional handlers are debug stubs that return 0 and do not touch the
conditional queue. -/
def doPerformDirective (lst : List LexerToken) (i : Nat) (macrosDict : MacroTable) :
    Except PyError (List LexerToken × Nat × MacroTable) :=
  let sz := cppDirectiveGetSize lst i
  let tokensTotalLen := sz.1
  let tokensLen := sz.2
  if tokensLen = 0 then .ok (pyDelRange lst i (i + 1), 0, macrosDict)
  else
    let j := skipSpacesJ lst i tokensTotalLen
    match lst[i + j]? with
    | none => .error .indexError
    | some firstTok =>
        if directiveKeywords.contains firstTok.val then
          let lst1 := pyDelRange lst i (i + j)
          match lst1[i]? with
          | none => .error .indexError
          | some kwTok =>
              match dispatchHandler kwTok.val lst1 i macrosDict tokensLen
                  (tokensTotalLen - j) with
              | .error e => .error e
              | .ok (m2, off) =>
                  .ok (pyDelRange lst1 i (i + (tokensTotalLen - j)), off, m2)
        else if conditionalKeywords.contains firstTok.val then
          let lst1 := pyDelRange lst i (i + j)
          .ok (pyDelRange lst1 i (i + (tokensTotalLen - j)), 0, macrosDict)
        else .ok (lst, 1, macrosDict)

/-- The backward check of `directives_do_process` deciding whether a `#`
token starts a directive:
`j = 1; while (i - j) >= 0: if lexer_lst[i - j] == ' ': continue else: break`.
The loop body never changes `j`, so it inspects `lexer_lst[i - 1]` forever:
it spins without terminating when that token is a space (`none`), and
otherwise breaks with `j = 1`, after which the directive condition is
`i == 0 or lexer_lst[i - j] == '\n'`. -/
def directiveCheck (lst : List LexerToken) (i : Nat) : Option Bool :=
  if i = 0 then some true
  else
    match lst[i - 1]? with
    | none => some false
    | some t => if t.val = [' '] then none else some (t.val = ['\n'])

/-- The possible outcomes of one iteration of the `directives_do_process`
while-loop. -/
inductive DdpStep where
  | done
  | next (lst : List LexerToken) (i : Nat) (m : MacroTable)
  | hang
  | err (e : PyError)
deriving Repr, DecidableEq

/-- One iteration of the while-loop of `directives_do_process`
(directives.py lines 488-523).  When the `#` at `i > 0` is not preceded by
a newline token, no branch of the loop body advances `i`, so the loop
repeats with an identical state.  `_do_macro_sub` reads
`sub_macro.function_like`, an attribute `CMacro` does not define, so a
macro hit raises `AttributeError`. -/
def ddpIter (lst : List LexerToken) (i : Nat) (m : MacroTable) : DdpStep :=
  match lst[i]? with
  | none => .done
  | some tok =>
      if tok.val = ['#'] then
        match directiveCheck lst i with
        | none => .hang
        | some true =>
            match doPerformDirective lst i m with
            | .error e => .err e
            | .ok (lst2, off, m2) => .next lst2 (i + off) m2
        | some false => .next lst i m
      else if tok.identifierCompatible ∧ mtContains m tok.val then .err .attributeError
      else .next lst (i + 1) m

/-- The observable outcome of running `directives_do_process` with a given
amount of fuel. -/
inductive DdpOutcome where
  | finished (lst : List LexerToken) (m : MacroTable)
  | hang
  | err (e : PyError)
  | outOfFuel
deriving Repr, DecidableEq

/-- Model of `directives_do_process` (directives.py lines 488-523), run for
at most `fuel` iterations of the outer while-loop. -/
def directives_do_process : Nat → List LexerToken → Nat → MacroTable → DdpOutcome
  | 0, _, _, _ => .outOfFuel
  | fuel + 1, lst, i, m =>
      match ddpIter lst i m with
      | .done => .finished lst m
      | .next l2 i2 m2 => directives_do_process fuel l2 i2 m2
      | .hang => .hang
      | .err e => .err e

/-! ### The Cppp constructor (cppp.py, Cppp.__init__) -/

/-- Dict `update` on an association list. -/
def dictUpdate (d : List (String × String)) (upd : List (String × String)) :
    List (String × String) :=
  upd.foldl
    (fun acc kv =>
      if acc.any (fun p => decide (p.1 = kv.1)) then
        acc.map (fun p => if p.1 = kv.1 then kv else p)
      else acc ++ [kv])
    d

/-- The class-level state of `Cppp`: `_predefined_values` is a class
attribute (`defaultdict(lambda: "")`), shared by every instance of the
class within the process. -/
structure CpppClassState where
  predefinedValues : List (String × String)
deriving Repr, DecidableEq

/-- The instance attributes assigned by `Cppp.__init__`. -/
structure CpppInstance where
  mainFileName : String
  trigraphsEnabled : Bool
  followIncluded : Bool
deriving Repr, DecidableEq

/-- Model of `Cppp.__init__` (cppp.py lines 30-57).  When a non-empty
`predefined_values` dict is passed, `self._predefined_values.update(...)`
resolves the attribute on the class and mutates the shared class-level
dictionary in place, so the constructor maps the class state to a new class
state. -/
def cpppInit (cls : CpppClassState) (mainFileName : String)
    (predefinedValues : Option (List (String × String)))
    (trigraphsEnabled followIncluded : Bool) : CpppClassState × CpppInstance :=
  let cls2 :=
    match predefinedValues with
    | some d =>
        if d.isEmpty then cls
        else { cls with predefinedValues := dictUpdate cls.predefinedValues d }
    | none => cls
  (cls2, ⟨mainFileName, trigraphsEnabled, followIncluded⟩)

/-- The predefined-macro table an instance observes when it reads
`self._predefined_values`: the class-level dictionary. -/
def observedPredefined (cls : CpppClassState) : List (String × String) :=
  cls.predefinedValues

/-! ### Specification predicates and concrete inputs used by the claims -/

/-- The position discipline of the source decoders, as a checkable chain:
given the expected line/column of the next emitted character, each emitted
character must carry exactly that position, and the expected position after
a newline is the next line at column 1, otherwise the same line at the next
column. -/
def chainFrom : Nat × Nat → List PChar → Bool
  | _, [] => true
  | (el, ek), (c, l, k) :: rest =>
      decide (l = el) && decide (k = ek) &&
        chainFrom (if c = '\n' then (l + 1, 1) else (l, k + 1)) rest

/-- The text still buffered in `token_buf`. -/
def tkBufChars (st : TkState) : List Char :=
  match st.tokenBuf with
  | some (_, t) => t
  | none => []

/-- The shapes a token text emitted by the tokenizer can have: a single
character, a text opened by a double quote, or a run of non-symbol
characters. -/
def GoodText (v : List Char) : Prop :=
  v.length = 1 ∨ v.head? = some '"' ∨ ∀ c ∈ v, isSymbol c = false

/-- The invariant of the tokenizer state: inside a string the buffer is the
partial string token (opened by its quote), and any buffered text is
non-empty and either quote-opened or symbol-free. -/
def TkInv (st : TkState) : Prop :=
  (st.inString = true → ∃ p t, st.tokenBuf = some (p, t) ∧ t.head? = some '"') ∧
  (∀ p t, st.tokenBuf = some (p, t) → t ≠ [] ∧
    (t.head? = some '"' ∨ ∀ c ∈ t, isSymbol c = false))

/-- The token list the pipeline produces for the well-formed directive line
`#define X 1`. -/
def c1DefineToks : List LexerToken := run_translation "#define X 1".toList false

/-- The token list the pipeline produces for `a#`: an identifier token
directly followed by a `#` token. -/
def c2ToksNoSpace : List LexerToken := run_translation "a#".toList false

/-- The token list the pipeline produces for `a #`: a space token directly
before the `#` token. -/
def c2ToksSpace : List LexerToken := run_translation "a #".toList false

/-! ## Helper lemmas -/

/-! ### Reproductions of the test expectations of the repository -/

/-- Whitespace truncation of phase 1, as in test_translation_phase_1. -/
theorem phase1_whitespace_example :
    do_translation_phase_1 false (input_txt_from_string "ab   c".toList) =
      [('a', 1, 2), ('b', 1, 3), (' ', 1, 4), ('c', 1, 7)] := by decide

/-- Comment removal of C-style comments, as in test_translation_phase_3. -/
theorem remove_comments_c_style_example :
    (do_translation_phase_3_remove_comments (do_translation_phase_2
      (do_translation_phase_1 false
        (input_txt_from_string "a\n b /* xyz */ c\n c /*\n d / /* // a */\n  e".toList)))).map
      Prod.fst = "a\nb c\nc\ne".toList := by decide

/-- Tokenization drops comment-only lines, as in test_translation_phase_3. -/
theorem tokenize_example :
    flattenTokens (run_translation "int x;\n// c\nint y;".toList false) =
      "int x;\nint y;".toList := by decide

/-! ### Phase-1 step lemmas -/

/-- The if/elif chain of phase 1 only updates the flags, never the buffer. -/
theorem p1chain_rbuf (st : P1State) (c : Char) : (p1chain st c).1.rbuf = st.rbuf := by
  unfold p1chain
  repeat' split
  all_goals rfl

/-- A question mark survives the chain unchanged and is never skipped. -/
theorem p1chain_q (st : P1State) : (p1chain st '?').2 = ('?', false) := by
  obtain ⟨rb, e, s, cc, cp⟩ := st
  cases e <;> cases s <;> cases cc <;> cases cp <;> rfl

/-- An equals sign survives the chain unchanged and is never skipped. -/
theorem p1chain_eq (st : P1State) : (p1chain st '=').2 = ('=', false) := by
  obtain ⟨rb, e, s, cc, cp⟩ := st
  cases e <;> cases s <;> cases cc <;> cases cp <;> rfl

/-- When the chain does not skip and the surviving character has no
trigraph substitution, the step appends that character to the buffer. -/
theorem p1step_appends (tg : Bool) (st : P1State) (pc : PChar)
    (hskip : (p1chain st pc.1).2.2 = false)
    (hnone : trigraphSubs (p1chain st pc.1).2.1 = none) :
    (p1step tg st pc).rbuf = ((p1chain st pc.1).2.1, pc.2) :: st.rbuf := by
  have hrb := p1chain_rbuf st pc.1
  unfold p1step
  rcases hres : p1chain st pc.1 with ⟨st1, c1, sk⟩
  rw [hres] at hskip hnone hrb
  simp only at hskip hnone hrb ⊢
  subst hskip
  rw [if_neg (by simp)]
  split
  · rename_i heq _ _
    simp_all
  · simp [hrb]

/-- With trigraphs disabled, any non-skipped character is appended. -/
theorem p1step_false_appends (st : P1State) (pc : PChar)
    (hskip : (p1chain st pc.1).2.2 = false) :
    (p1step false st pc).rbuf = ((p1chain st pc.1).2.1, pc.2) :: st.rbuf := by
  have hrb := p1chain_rbuf st pc.1
  unfold p1step
  rcases hres : p1chain st pc.1 with ⟨st1, c1, sk⟩
  rw [hres] at hskip hrb
  simp only at hskip hrb ⊢
  subst hskip
  rw [if_neg (by simp)]
  simp [hrb]

/-- A question mark is always appended to the buffer, in any state and with
either trigraph setting: it is not a trigraph substitution key. -/
theorem p1step_q (tg : Bool) (st : P1State) (p : Nat × Nat) :
    (p1step tg st ('?', p)).rbuf = ('?', p) :: st.rbuf := by
  have hq := p1chain_q st
  have h := p1step_appends tg st ('?', p)
  rw [hq] at h
  exact h rfl rfl

/-- With trigraphs enabled, an equals sign arriving when the two most
recently buffered characters are question marks fires the `??=` trigraph:
the top of the buffer is popped and the next cell is rewritten to `#` in
place, keeping its position. -/
theorem p1step_eq_fires (st : P1State) (p pa pb : Nat × Nat) (rest : List PChar)
    (hbuf : st.rbuf = ('?', pa) :: ('?', pb) :: rest) :
    (p1step true st ('=', p)).rbuf = ('#', pb) :: rest := by
  have hq := p1chain_eq st
  have hrb := p1chain_rbuf st '='
  unfold p1step
  rcases hres : p1chain st '=' with ⟨st1, c1, sk⟩
  rw [hres] at hq hrb
  simp only at hq hrb ⊢
  obtain ⟨hc1, hsk⟩ : c1 = '=' ∧ sk = false := ⟨congrArg Prod.fst hq, congrArg Prod.snd hq⟩
  subst hc1 hsk
  rw [if_neg (by simp)]
  rw [hrb, hbuf]
  simp [trigraphSubs]

/-- With trigraphs disabled an equals sign is always appended. -/
theorem p1step_eq_false (st : P1State) (p : Nat × Nat) :
    (p1step false st ('=', p)).rbuf = ('=', p) :: st.rbuf := by
  have hq := p1chain_eq st
  have h := p1step_false_appends st ('=', p)
  rw [hq] at h
  exact h rfl

/-- No phase-1 step ever removes a `#` from the buffer: a step appends,
skips, or pops a question mark while rewriting a question mark. -/
theorem p1step_mem_hash (tg : Bool) (st : P1State) (pc : PChar)
    (h : '#' ∈ st.rbuf.map Prod.fst) : '#' ∈ (p1step tg st pc).rbuf.map Prod.fst := by
  have hrb := p1chain_rbuf st pc.1
  unfold p1step
  rcases hres : p1chain st pc.1 with ⟨st1, c1, sk⟩
  rw [hres] at hrb
  simp only at hrb ⊢
  by_cases hsk : sk = true
  · rw [if_pos hsk, hrb]; exact h
  · rw [if_neg hsk]
    split
    · rename_i q1 q1p q2 p2 rest sub heq hsub
      split
      · rename_i hqq
        rw [hrb] at heq
        rw [heq] at h
        simp only [List.map_cons, List.mem_cons] at h
        rcases h with h1 | h2 | h3
        · exact absurd (h1.trans hqq.1) (by decide)
        · exact absurd (h2.trans hqq.2) (by decide)
        · simp [h3]
      · simp [hrb, h]
    · simp [hrb, h]

/-- With trigraphs disabled, a step leaves the buffer unchanged or extends
it by one cell. -/
theorem p1step_false_extends (st : P1State) (pc : PChar) :
    (p1step false st pc).rbuf = st.rbuf ∨
      ∃ x, (p1step false st pc).rbuf = x :: st.rbuf := by
  have hrb := p1chain_rbuf st pc.1
  unfold p1step
  rcases hres : p1chain st pc.1 with ⟨st1, c1, sk⟩
  rw [hres] at hrb
  simp only at hrb ⊢
  by_cases hsk : sk = true
  · rw [if_pos hsk, hrb]; exact .inl rfl
  · rw [if_neg hsk]
    exact .inr ⟨(c1, pc.2), by simp [hrb]⟩

/-- A buffered `#` survives the rest of the phase-1 run. -/
theorem p1fold_mem_hash (tg : Bool) (s : List PChar) : ∀ st : P1State,
    '#' ∈ st.rbuf.map Prod.fst → '#' ∈ (s.foldl (p1step tg) st).rbuf.map Prod.fst := by
  induction s with
  | nil => intro st h; exact h
  | cons pc rest ih => intro st h; exact ih _ (p1step_mem_hash tg st pc h)

/-- With trigraphs disabled, the rest of the run only stacks new cells on
top of the current buffer. -/
theorem p1fold_false_extends (s : List PChar) : ∀ st : P1State,
    ∃ ext, (s.foldl (p1step false) st).rbuf = ext ++ st.rbuf := by
  induction s with
  | nil => intro st; exact ⟨[], rfl⟩
  | cons pc rest ih =>
      intro st
      rcases p1step_false_extends st pc with h | ⟨x, h⟩
      · obtain ⟨ext, hext⟩ := ih (p1step false st pc)
        exact ⟨ext, by rw [List.foldl_cons, hext, h]⟩
      · obtain ⟨ext, hext⟩ := ih (p1step false st pc)
        exact ⟨ext ++ [x], by rw [List.foldl_cons, hext, h]; simp⟩

/-! ### Decoder position lemmas -/

/-- The string-decoder loop emits positions following the chain discipline:
from state `(l, k, b)` the next emitted character carries `(l + 1, 1)` when
the previous consumed character was a newline and `(l, k + 1)` otherwise. -/
theorem inputStringGo_chain (cs : List Char) : ∀ (l k : Nat) (b : Bool),
    chainFrom (if b then (l + 1, 1) else (l, k + 1)) (inputStringGo cs l k b) = true := by
  induction cs with
  | nil => intro l k b; cases b <;> rfl
  | cons c rest ih =>
      intro l k b
      by_cases hc : c = replacementChar
      · rw [inputStringGo, if_pos hc]
        exact ih l k b
      · rw [inputStringGo, if_neg hc]
        cases b
        · simp only [if_neg (by simp : ¬(false = true))]
          show chainFrom (l, k + 1)
            ((c, l, k + 1) :: inputStringGo rest l (k + 1) (decide (c = '\n'))) = true
          rw [chainFrom]
          by_cases h2 : c = '\n'
          · simp only [h2, if_pos rfl, decide_eq_true_eq]
            simpa [h2] using ih l (k + 1) true
          · simp only [if_neg h2]
            simpa [h2] using ih l (k + 1) false
        · simp only [if_pos rfl]
          show chainFrom (l + 1, 1)
            ((c, l + 1, 1) :: inputStringGo rest (l + 1) 1 (decide (c = '\n'))) = true
          rw [chainFrom]
          by_cases h2 : c = '\n'
          · simp only [h2, if_pos rfl]
            simpa [h2] using ih (l + 1) 1 true
          · simp only [if_neg h2]
            simpa [h2] using ih (l + 1) 1 false

/-- The file-decoder loop follows the same chain discipline; the newline
test is taken on the character after the CR/FF mapping, as in the source. -/
theorem inputFileGo_chain (cs : List Char) : ∀ (l k : Nat) (b : Bool),
    chainFrom (if b then (l + 1, 1) else (l, k + 1)) (inputFileGo cs l k b) = true := by
  induction cs with
  | nil => intro l k b; cases b <;> rfl
  | cons c rest ih =>
      intro l k b
      by_cases hc : c = replacementChar
      · rw [inputFileGo, if_pos hc]
        exact ih l k b
      · rw [inputFileGo, if_neg hc]
        cases b
        · simp only [if_neg (by simp : ¬(false = true))]
          show chainFrom (l, k + 1)
            ((if c = '\r' ∨ c = '\x0c' then '\n' else c, l, k + 1) ::
              inputFileGo rest l (k + 1)
                (decide ((if c = '\r' ∨ c = '\x0c' then '\n' else c) = '\n'))) = true
          rw [chainFrom]
          by_cases h2 : (if c = '\r' ∨ c = '\x0c' then '\n' else c) = '\n'
          · simp only [h2, if_pos rfl, decide_eq_true_eq]
            simpa [h2] using ih l (k + 1) true
          · simp only [if_neg h2]
            simpa [h2] using ih l (k + 1) false
        · simp only [if_pos rfl]
          show chainFrom (l + 1, 1)
            ((if c = '\r' ∨ c = '\x0c' then '\n' else c, l + 1, 1) ::
              inputFileGo rest (l + 1) 1
                (decide ((if c = '\r' ∨ c = '\x0c' then '\n' else c) = '\n'))) = true
          rw [chainFrom]
          by_cases h2 : (if c = '\r' ∨ c = '\x0c' then '\n' else c) = '\n'
          · simp only [h2, if_pos rfl]
            simpa [h2] using ih (l + 1) 1 true
          · simp only [if_neg h2]
            simpa [h2] using ih (l + 1) 1 false

/-! ### Tokenizer lemmas -/

/-- `flattenTokens` distributes over append. -/
theorem flattenTokens_append (a b : List LexerToken) :
    flattenTokens (a ++ b) = flattenTokens a ++ flattenTokens b := by
  induction a with
  | nil => rfl
  | cons t rest ih =>
      show t.val ++ flattenTokens (rest ++ b) = (t.val ++ flattenTokens rest) ++ flattenTokens b
      rw [ih, List.append_assoc]

/-- One tokenizer step conserves text: the characters it emits plus the
characters it leaves buffered are the characters that were buffered plus
the consumed character. -/
theorem tkstep_chars (st : TkState) (pc : PChar) :
    flattenTokens (tkstep st pc).2 ++ tkBufChars (tkstep st pc).1 = tkBufChars st ++ [pc.1] := by
  obtain ⟨ins, esc, buf⟩ := st
  cases ins
  · by_cases hsym : isSymbol pc.1
    · by_cases hq : pc.1 = '"' <;>
        rcases buf with _ | ⟨p, t⟩ <;>
        simp [tkstep, hsym, hq, tkBufChars, flattenTokens, mkBufToken,
          show isSymbol '"' = true by rfl]
    · rcases buf with _ | ⟨p, t⟩ <;>
        simp [tkstep, hsym, tkBufChars, flattenTokens, mkBufToken]
  · cases esc <;> by_cases h1 : pc.1 = '"' <;> by_cases h2 : pc.1 = '\\' <;>
      rcases buf with _ | ⟨p, t⟩ <;>
      simp [tkstep, h1, h2, tkBufChars, flattenTokens, mkBufToken]

/-- The tokenizer loop conserves text from any starting state. -/
theorem tkGo_flatten (input : List PChar) : ∀ st : TkState,
    flattenTokens (tkGo st input) = tkBufChars st ++ input.map Prod.fst := by
  induction input with
  | nil =>
      intro st
      rcases hb : st.tokenBuf with _ | ⟨p, t⟩ <;>
        simp [tkGo, hb, tkBufChars, flattenTokens, mkBufToken]
  | cons pc rest ih =>
      intro st
      show flattenTokens ((tkstep st pc).2 ++ tkGo (tkstep st pc).1 rest) =
        tkBufChars st ++ (pc :: rest).map Prod.fst
      rw [flattenTokens_append, ih]
      rw [← List.append_assoc, tkstep_chars]
      simp

/-- On a tail without a newline the Python dollar anchor agrees with the
plain Kleene-star match. -/
theorem identTailMatch_of_no_newline (l : List Char) (h : ∀ c ∈ l, c ≠ '\n') :
    identTailMatch l = l.all isIdentTailChar := by
  induction l with
  | nil => rfl
  | cons c rest ih =>
      rw [identTailMatch, if_neg (fun hc => h c (List.mem_cons_self c rest) hc.1),
        List.all_cons, ih (fun x hx => h x (List.mem_cons_of_mem _ hx))]

/-- On every emittable token text the Python regex test agrees with the
exact full-width identifier match. -/
theorem good_match (v : List Char) (h : GoodText v) :
    is_identifier_compatible v = matchesIdentifierRegex v := by
  rcases h with h1 | h2 | h3
  · rcases v with _ | ⟨c, _ | ⟨d, rest⟩⟩
    · simp at h1
    · rfl
    · simp at h1
  · rcases v with _ | ⟨c, rest⟩
    · simp at h2
    · have hc : c = '"' := by simpa using h2
      subst hc
      show (isIdentStartChar '"' && identTailMatch rest) =
        (isIdentStartChar '"' && rest.all isIdentTailChar)
      rw [show isIdentStartChar '"' = false from rfl]
      simp
  · rcases v with _ | ⟨c, rest⟩
    · rfl
    · show (isIdentStartChar c && identTailMatch rest) =
        (isIdentStartChar c && rest.all isIdentTailChar)
      rw [identTailMatch_of_no_newline rest]
      intro x hx hnl
      subst hnl
      have := h3 '\n' (List.mem_cons_of_mem _ hx)
      rw [show isSymbol '\n' = true from rfl] at this
      exact absurd this (by simp)

/-- Appending to a quote-opened text keeps the opening quote in front. -/
theorem head_append_quote (t : List Char) (c : Char) (h : t.head? = some '"') :
    (t ++ [c]).head? = some '"' := by
  rcases t with _ | ⟨t0, ts⟩
  · simp at h
  · simpa using h

/-- Appending a character to the partial string token keeps the invariant. -/
theorem tkinv_string_append (b e : Bool) (p : Nat × Nat) (t : List Char) (c : Char)
    (hhead : t.head? = some '"') : TkInv ⟨b, e, some (p, t ++ [c])⟩ := by
  constructor
  · intro _
    exact ⟨p, t ++ [c], rfl, head_append_quote t c hhead⟩
  · intro p2 t2 ht2
    injection ht2 with ht2
    injection ht2 with h1 h2
    subst h2
    exact ⟨by simp, .inl (head_append_quote t c hhead)⟩

/-- A freshly opened string token satisfies the invariant. -/
theorem tkinv_fresh_quote (e : Bool) (pos : Nat × Nat) :
    TkInv ⟨true, e, some (pos, ['"'])⟩ := by
  constructor
  · intro _
    exact ⟨pos, ['"'], rfl, rfl⟩
  · intro p2 t2 ht2
    injection ht2 with ht2
    injection ht2 with h1 h2
    subst h2
    exact ⟨by simp, .inl rfl⟩

/-- The empty-buffer state satisfies the invariant. -/
theorem tkinv_none (e : Bool) : TkInv ⟨false, e, none⟩ :=
  ⟨by simp, by simp⟩

/-- One tokenizer step preserves the invariant, and every token it emits
carries the Python regex flag of its own text and has an emittable shape. -/
theorem tkstep_inv (st : TkState) (pc : PChar) (h : TkInv st) :
    TkInv (tkstep st pc).1 ∧
      ∀ tok ∈ (tkstep st pc).2,
        tok.identifierCompatible = is_identifier_compatible tok.val ∧ GoodText tok.val := by
  obtain ⟨ins, esc, buf⟩ := st
  obtain ⟨c, pos⟩ := pc
  cases ins
  · by_cases hsym : isSymbol c
    · rcases buf with _ | ⟨p, t⟩
      · by_cases hq : c = '"'
        · subst hq
          refine ⟨?_, by simp [tkstep, show isSymbol '"' = true from rfl]⟩
          simpa [tkstep, show isSymbol '"' = true from rfl] using tkinv_fresh_quote esc pos
        · obtain ⟨hstep1, hstep2⟩ :
              (tkstep ⟨false, esc, none⟩ (c, pos)).1 = ⟨false, esc, none⟩ ∧
              (tkstep ⟨false, esc, none⟩ (c, pos)).2 = [mkBufToken (pos, [c])] := by
            simp [tkstep, hsym, hq]
          rw [hstep1, hstep2]
          refine ⟨tkinv_none esc, ?_⟩
          intro tok htok
          rw [List.mem_singleton] at htok
          subst htok
          exact ⟨rfl, .inl rfl⟩
      · obtain ⟨hne, hdisj⟩ := h.2 p t rfl
        have hgood : GoodText t := .inr hdisj
        by_cases hq : c = '"'
        · subst hq
          obtain ⟨hstep1, hstep2⟩ :
              (tkstep ⟨false, esc, some (p, t)⟩ ('"', pos)).1 = ⟨true, esc, some (pos, ['"'])⟩ ∧
              (tkstep ⟨false, esc, some (p, t)⟩ ('"', pos)).2 = [mkBufToken (p, t)] := by
            simp [tkstep, show isSymbol '"' = true from rfl]
          rw [hstep1, hstep2]
          refine ⟨tkinv_fresh_quote esc pos, ?_⟩
          intro tok htok
          rw [List.mem_singleton] at htok
          subst htok
          exact ⟨rfl, hgood⟩
        · obtain ⟨hstep1, hstep2⟩ :
              (tkstep ⟨false, esc, some (p, t)⟩ (c, pos)).1 = ⟨false, esc, none⟩ ∧
              (tkstep ⟨false, esc, some (p, t)⟩ (c, pos)).2 =
                [mkBufToken (p, t), mkBufToken (pos, [c])] := by
            simp [tkstep, hsym, hq]
          rw [hstep1, hstep2]
          refine ⟨tkinv_none esc, ?_⟩
          intro tok htok
          rw [List.mem_cons] at htok
          rcases htok with htok | htok
          · subst htok
            exact ⟨rfl, hgood⟩
          · rw [List.mem_singleton] at htok
            subst htok
            exact ⟨rfl, .inl rfl⟩
    · rcases buf with _ | ⟨p, t⟩
      · obtain ⟨hstep1, hstep2⟩ :
            (tkstep ⟨false, esc, none⟩ (c, pos)).1 = ⟨false, esc, some (pos, [c])⟩ ∧
            (tkstep ⟨false, esc, none⟩ (c, pos)).2 = [] := by
          simp [tkstep, hsym]
        rw [hstep1, hstep2]
        refine ⟨⟨by simp, ?_⟩, by simp⟩
        intro p2 t2 ht2
        injection ht2 with ht2
        injection ht2 with h1 h2
        subst h2
        refine ⟨by simp, .inr ?_⟩
        intro x hx
        rw [List.mem_singleton] at hx
        subst hx
        simpa using hsym
      · obtain ⟨hne, hdisj⟩ := h.2 p t rfl
        obtain ⟨hstep1, hstep2⟩ :
            (tkstep ⟨false, esc, some (p, t)⟩ (c, pos)).1 = ⟨false, esc, some (p, t ++ [c])⟩ ∧
            (tkstep ⟨false, esc, some (p, t)⟩ (c, pos)).2 = [] := by
          simp [tkstep, hsym]
        rw [hstep1, hstep2]
        refine ⟨⟨by simp, ?_⟩, by simp⟩
        intro p2 t2 ht2
        injection ht2 with ht2
        injection ht2 with h1 h2
        subst h2
        refine ⟨by simp, ?_⟩
        rcases hdisj with hd | hd
        · exact .inl (head_append_quote t c hd)
        · refine .inr ?_
          intro x hx
          rcases List.mem_append.1 hx with hx | hx
          · exact hd x hx
          · rw [List.mem_singleton] at hx
            subst hx
            simpa using hsym
  · obtain ⟨p, t, hbuf, hhead⟩ := h.1 rfl
    subst hbuf
    obtain ⟨b, e, heq⟩ : ∃ b e : Bool,
        tkstep ⟨true, esc, some (p, t)⟩ (c, pos) = (⟨b, e, some (p, t ++ [c])⟩, []) := by
      cases esc
      · by_cases hq : c = '"'
        · exact ⟨false, false, by simp [tkstep, hq]⟩
        · by_cases hbs : c = '\\'
          · exact ⟨true, true, by simp [tkstep, hq, hbs]⟩
          · exact ⟨true, false, by simp [tkstep, hq, hbs]⟩
      · exact ⟨true, false, by simp [tkstep]⟩
    rw [heq]
    exact ⟨tkinv_string_append b e p t c hhead, by simp⟩

/-- Every token the tokenizer loop emits from an invariant state carries
the Python regex flag of its own text and has an emittable shape. -/
theorem tkGo_good (input : List PChar) : ∀ st : TkState, TkInv st →
    ∀ tok ∈ tkGo st input,
      tok.identifierCompatible = is_identifier_compatible tok.val ∧ GoodText tok.val := by
  induction input with
  | nil =>
      intro st h tok htok
      rcases hb : st.tokenBuf with _ | ⟨p, t⟩
      · simp [tkGo, hb] at htok
      · rw [show tkGo st [] = [mkBufToken (p, t)] by rw [tkGo, hb]] at htok
        rw [List.mem_singleton] at htok
        subst htok
        obtain ⟨hne, hdisj⟩ := h.2 p t hb
        exact ⟨rfl, .inr hdisj⟩
  | cons pc rest ih =>
      intro st h tok htok
      obtain ⟨hinv, hemit⟩ := tkstep_inv st pc h
      rw [show tkGo st (pc :: rest) = (tkstep st pc).2 ++ tkGo (tkstep st pc).1 rest from rfl]
        at htok
      rcases List.mem_append.1 htok with htok | htok
      · exact hemit tok htok
      · exact ih _ hinv tok htok

/-! ### Directive-scan lemma -/

/-- From the configuration reached after `a#` the scan loop of
`directives_do_process` repeats the identical state forever: the `#` at
index 1 is preceded by a non-space non-newline token, no branch advances
the index, and the loop never finishes with any amount of fuel. -/
theorem ddp_stuck_after_ident : ∀ fuel,
    directives_do_process fuel
      [⟨(1, 2), ['a'], true⟩, ⟨(1, 3), ['#'], false⟩] 1 [] = .outOfFuel := by
  intro fuel
  induction fuel with
  | zero => rfl
  | succ n ih => exact ih

/-! ## The claims -/

/-- Claim C1: executing the well-formed directive line `#define X 1` should
leave the macro table mapping `X` to the parsed definition.  The code never
gets there: `_cpp_directive_handle_define` builds the table value with
`CMacro(macros_data, macro_params, macro_name.start, function_like,
variadic_macro)` — five positional arguments — while `CMacro.__init__`
accepts at most three, so every well-formed `#define` raises `TypeError`
and the table is never updated.  The theorem evaluates the embedded engine
on the tokens of `#define X 1`: the directive handler and the whole scan
raise `TypeError`. -/
theorem C1_define_raises_type_error :
    c1DefineToks =
      [⟨(1, 2), ['#'], false⟩, ⟨(1, 3), "define".toList, true⟩, ⟨(1, 9), [' '], false⟩,
       ⟨(1, 10), ['X'], true⟩, ⟨(1, 11), [' '], false⟩, ⟨(1, 12), ['1'], false⟩] ∧
    doPerformDirective c1DefineToks 0 [] = .error .typeError ∧
    directives_do_process 5 c1DefineToks 0 [] = .err .typeError := by
  refine ⟨by decide, rfl, rfl⟩

/-- Claim C2: the scan should treat `#` as a directive start exactly when
only spaces separate it from the previous newline, should terminate on
every finite token list, and should otherwise step past the `#`.  The code
diverges instead: on the tokens of `a#` the `#` at index 1 fails the
directive test and no branch of the loop body advances the index, so the
scan never finishes for any fuel; and on the tokens of `a #` the inner
backward loop never increments `j`, re-inspecting the space token forever. -/
theorem C2_directive_scan_diverges :
    (∀ fuel, directives_do_process fuel c2ToksNoSpace 0 [] = .outOfFuel) ∧
    directives_do_process 50 c2ToksSpace 0 [] = .hang := by
  constructor
  · intro fuel
    have hl : c2ToksNoSpace = [⟨(1, 2), ['a'], true⟩, ⟨(1, 3), ['#'], false⟩] := by decide
    rw [hl]
    cases fuel with
    | zero => rfl
    | succ n => exact ddp_stuck_after_ident n
  · rfl

/-- Claim C3: phase 2 should delete exactly each backslash immediately
followed by a newline (with that newline) and pass every other character
through, including a backslash not followed by a newline.  The code drops
such a backslash: it consumes the backslash to set the escape flag and
never re-emits it when the next character is not a newline, so the input
`\a` comes out as `a`. -/
theorem C3_backslash_dropped :
    do_translation_phase_2 [('\\', 1, 2), ('a', 1, 3)] = [('a', 1, 3)] ∧
    do_translation_phase_2 [('\\', 1, 2), ('a', 1, 3)] ≠ [('\\', 1, 2), ('a', 1, 3)] := by
  decide

/-- Claim C4: the pipeline should be idempotent — re-running it on its own
flattened output should reproduce the token sequence.  It is not: on the
input `\\` (two backslashes) the first run emits one backslash token (phase
2 collapses the pair), the flattened text is a single backslash, and the
second run emits no token at all (phase 2 swallows a lone backslash). -/
theorem C4_pipeline_not_idempotent :
    run_translation ['\\', '\\'] false = [⟨(1, 3), ['\\'], false⟩] ∧
    flattenTokens (run_translation ['\\', '\\'] false) = ['\\'] ∧
    run_translation (flattenTokens (run_translation ['\\', '\\'] false)) false = [] ∧
    run_translation (flattenTokens (run_translation ['\\', '\\'] false)) false ≠
      run_translation ['\\', '\\'] false := by
  decide

/-- Claim C5: with trigraphs enabled every occurrence of `??=` yields a `#`
in the phase-1 output, in any surrounding context including string and char
literals; with trigraphs disabled the three characters pass through as the
consecutive run `??=`; and the scenario input `ab ??= ???! ` with trigraphs
enabled yields exactly `ab # ?| `. -/
theorem C5_trigraph_invariant :
    (∀ (p s : List PChar) (pa pb pe : Nat × Nat),
        '#' ∈ (do_translation_phase_1 true
          (p ++ [('?', pa), ('?', pb), ('=', pe)] ++ s)).map Prod.fst) ∧
    (∀ (p s : List PChar) (pa pb pe : Nat × Nat), ∃ u v,
        (do_translation_phase_1 false (p ++ [('?', pa), ('?', pb), ('=', pe)] ++ s)).map
          Prod.fst = u ++ ['?', '?', '='] ++ v) ∧
    (do_translation_phase_1 true (input_txt_from_string "ab ??= ???! ".toList)).map Prod.fst
      = "ab # ?| ".toList := by
  refine ⟨?_, ?_, by decide⟩
  · intro p s pa pb pe
    unfold do_translation_phase_1
    rw [List.foldl_append, List.foldl_append]
    set st0 := List.foldl (p1step true) ⟨[], false, false, false, false⟩ p with hst0
    have h1 := p1step_q true st0 pa
    have h2 := p1step_q true (p1step true st0 ('?', pa)) pb
    have h3 := p1step_eq_fires (p1step true (p1step true st0 ('?', pa)) ('?', pb)) pe pb pa
      st0.rbuf (by rw [h2, h1])
    have hmem : '#' ∈ (List.foldl (p1step true)
        (List.foldl (p1step true) st0 [('?', pa), ('?', pb), ('=', pe)]) s).rbuf.map
          Prod.fst := by
      apply p1fold_mem_hash
      simp only [List.foldl_cons, List.foldl_nil]
      rw [h3]
      simp
    simpa [List.map_reverse, List.mem_reverse] using hmem
  · intro p s pa pb pe
    unfold do_translation_phase_1
    rw [List.foldl_append, List.foldl_append]
    set st0 := List.foldl (p1step false) ⟨[], false, false, false, false⟩ p with hst0
    have h1 := p1step_q false st0 pa
    have h2 := p1step_q false (p1step false st0 ('?', pa)) pb
    have h3 := p1step_eq_false (p1step false (p1step false st0 ('?', pa)) ('?', pb)) pe
    obtain ⟨ext, hext⟩ := p1fold_false_extends s
      (List.foldl (p1step false) st0 [('?', pa), ('?', pb), ('=', pe)])
    refine ⟨(st0.rbuf.reverse).map Prod.fst, (ext.reverse).map Prod.fst, ?_⟩
    rw [hext]
    simp only [List.foldl_cons, List.foldl_nil] at *
    rw [h3, h2, h1]
    simp

/-- Claim C6 counterexample: the claim says column numbering begins at 1 at
the start of the input, so on the one-character input `a` the decoder would
emit `('a', 1, 1)`.  It actually emits `('a', 1, 2)`: the column counter is
incremented before the first character is emitted. -/
theorem C6_counterexample :
    input_txt_from_string ['a'] = [('a', 1, 2)] ∧
    input_txt_from_string ['a'] ≠ [('a', 1, 1)] := by
  decide

/-- Claim C6, amended: for both decoders, line numbers start at 1 and
increment only after a newline is consumed (the newline itself is reported
at the line it terminates), the column resets to 1 on the character
immediately following each newline and otherwise increments by one per
emitted character — but the very first character of the input carries
column 2, not 1, because the counter starts at 1 and is pre-incremented. -/
theorem C6_decoder_positions : ∀ text : List Char,
    chainFrom (1, 2) (input_txt_from_string text) = true ∧
    chainFrom (1, 2) (input_txt_from_file text) = true := by
  intro text
  constructor
  · simpa using inputStringGo_chain (correctNewlines text) 1 1 false
  · simpa using inputFileGo_chain text 1 1 false

/-- Claim C7: phases 1 through 3a on the scenario input produce exactly
`a\nb\nc\nd / /\ne`. -/
theorem C7_comment_stripping_scenario :
    (do_translation_phase_3_remove_comments (do_translation_phase_2
      (do_translation_phase_1 false
        (input_txt_from_string "a\n b // xyz\n   c // /* //\n d / / // */\n  e".toList)))).map
      Prod.fst = "a\nb\nc\nd / /\ne".toList := by
  decide

/-- Claim C8: every token the tokenizer emits has its identifier flag set
exactly when its full text matches `^[A-Za-z_][A-Za-z0-9_]*$`; in
particular digit-led texts and single space, newline or punctuator tokens
get the flag false, since their texts fail the regex. -/
theorem C8_identifier_flag : ∀ (input : List PChar) (tok : LexerToken),
    tok ∈ do_translation_phase_3_tokenize input →
    tok.identifierCompatible = matchesIdentifierRegex tok.val := by
  intro input tok htok
  obtain ⟨hflag, hgood⟩ := tkGo_good input ⟨false, false, none⟩ ⟨by simp, by simp⟩ tok htok
  rw [hflag, good_match _ hgood]

/-- Witness for C8 at a concrete input: the token `a` emitted for the
one-character input carries the flag prescribed by the regex. -/
theorem C8_identifier_flag_witness :
    (⟨(1, 2), ['a'], true⟩ : LexerToken).identifierCompatible =
      matchesIdentifierRegex ['a'] :=
  C8_identifier_flag [('a', 1, 2)] ⟨(1, 2), ['a'], true⟩ (by decide)

/-- Claim C9: the predefined-macro table observed by a second `Cppp`
instance should not depend on whether a first instance was constructed or
on what `predefined_values` were passed to it.  It does depend on both:
`_predefined_values` is a class attribute and `__init__` mutates it with
`update`, so after `Cppp("a.c", {"X": "1"})` a fresh `Cppp("b.c")`
observes `X -> 1`, while without the first construction it observes the
empty table. -/
theorem C9_predefined_values_shared :
    observedPredefined (cpppInit ⟨[]⟩ "b.c" none false false).1 = [] ∧
    observedPredefined (cpppInit (cpppInit ⟨[]⟩ "a.c" (some [("X", "1")]) false false).1
        "b.c" none false false).1 = [("X", "1")] ∧
    observedPredefined (cpppInit (cpppInit ⟨[]⟩ "a.c" (some [("X", "1")]) false false).1
        "b.c" none false false).1 ≠
      observedPredefined (cpppInit ⟨[]⟩ "b.c" none false false).1 := by
  refine ⟨rfl, rfl, by decide⟩

/-- Claim C10: concatenating the texts of all tokens the tokenizer emits
reproduces the input character sequence exactly — no character is dropped,
duplicated or reordered, and a pending partial token (for example an
unterminated string literal) is flushed at end of input. -/
theorem C10_tokenizer_preserves_text : ∀ input : List PChar,
    flattenTokens (do_translation_phase_3_tokenize input) = input.map Prod.fst := by
  intro input
  simpa [tkBufChars] using tkGo_flatten input ⟨false, false, none⟩

end Cppp
